import Mathlib

/-
  Verification of the BRD-generator backend (project/version lifecycle,
  rule-based text analysis, diff rendering, generation orchestration).

  Python strings are modelled as `List Char`; Python dicts that always hold a
  fixed set of keys are modelled as structures; a dict that is either empty or
  fully populated is modelled as `Option` of the populated structure (Python
  truthiness of a dict is emptiness).  `str.lower` is modelled per character by
  `Char.toLower` (ASCII case mapping); the keyword tests below only involve
  ASCII characters.
-/

namespace BRD

abbrev PyStr := List Char

/-- Python `s.lower()`, character by character. -/
def pyLower (s : PyStr) : PyStr := s.map Char.toLower

/-- Python `sub in s` : substring containment. -/
def pyIn (sub : PyStr) : PyStr → Bool
  | [] => sub.isEmpty
  | c :: rest => sub.isPrefixOf (c :: rest) || pyIn sub rest

/-- Python `s.startswith(p)`. -/
def pyStartswith (p s : PyStr) : Bool := p.isPrefixOf s

/-- The line-boundary characters of Python `str.splitlines`. -/
def isLineBreak (c : Char) : Bool :=
  c = '\n' || c = '\r' || c = '\x0b' || c = '\x0c' ||
  c = '\x1c' || c = '\x1d' || c = '\x1e' || c = '\x85' ||
  c = '\u2028' || c = '\u2029'

def pySplitlinesAux : PyStr → PyStr → List PyStr
  | '\r' :: '\n' :: rest, acc => acc.reverse :: pySplitlinesAux rest []
  | c :: rest, acc =>
      if isLineBreak c then acc.reverse :: pySplitlinesAux rest []
      else pySplitlinesAux rest (c :: acc)
  | [], acc => match acc with
      | [] => []
      | _ => [acc.reverse]

/-- Python `s.splitlines()`. -/
def pySplitlines (s : PyStr) : List PyStr := pySplitlinesAux s []

/-- Python `s.lstrip(chars)` : drop characters of `chars` from the left. -/
def pyLStripChars (chars s : PyStr) : PyStr := s.dropWhile (fun c => chars.contains c)

/-- Python `s.strip(chars)` : drop characters of `chars` from both ends. -/
def pyStripChars (chars s : PyStr) : PyStr :=
  ((pyLStripChars chars s).reverse.dropWhile (fun c => chars.contains c)).reverse

/-- Python whitespace characters stripped by a bare `str.strip()` (ASCII part). -/
def pyWhitespace : PyStr := [' ', '\t', '\n', '\r', '\x0b', '\x0c']

/-- Python `s.strip()`. -/
def pyStrip (s : PyStr) : PyStr := pyStripChars pyWhitespace s

/-! ## app/services/analysis.py -/

def MOSCOW_CATEGORIES : List PyStr := ["Must".data, "Should".data, "Could".data, "Won't".data]

structure GapAnalysis where
  missing_information : List PyStr
  clarifying_questions : List PyStr
deriving DecidableEq, Repr

/-- `build_gap_analysis` from app/services/analysis.py: the two `missing`
appends happen in source order (performance check, then security check), the
`integration` check feeds `clarifying`. -/
def build_gap_analysis (brd_markdown : PyStr) : GapAnalysis :=
  let missing : List PyStr :=
    (if pyIn "performance".data (pyLower brd_markdown) then []
     else ["Performance benchmarks".data]) ++
    (if pyIn "security".data (pyLower brd_markdown) then []
     else ["Security requirements detail".data])
  let clarifying : List PyStr :=
    (if pyIn "integration".data (pyLower brd_markdown) then []
     else ["Which systems require integration?".data])
  { missing_information := missing, clarifying_questions := clarifying }

structure PriorityEntry where
  requirement : PyStr
  priority : PyStr
deriving DecidableEq, Repr

/-- Loop body of `prioritize_requirements`: `idx` is the 1-based line index of
the head of the remaining line list (Python `enumerate(..., start=1)`). -/
def prioritizeAux : Nat → List PyStr → List PriorityEntry
  | _, [] => []
  | idx, line :: rest =>
    let line_lower := pyLower line
    if pyStartswith "1.".data line_lower || pyStartswith "-".data line_lower then
      let bucket : PyStr :=
        if pyIn "must".data line_lower then "Must".data
        else if pyIn "should".data line_lower then "Should".data
        else if pyIn "could".data line_lower then "Could".data
        else MOSCOW_CATEGORIES.getD (idx % MOSCOW_CATEGORIES.length) []
      { requirement := pyStripChars "- ".data line, priority := bucket }
        :: prioritizeAux (idx + 1) rest
    else prioritizeAux (idx + 1) rest

/-- `prioritize_requirements` from app/services/analysis.py. -/
def prioritize_requirements (brd_markdown : PyStr) : List PriorityEntry :=
  prioritizeAux 1 (pySplitlines brd_markdown)

/-! ## Specification-side reformulations of the prioritization rules -/

/-- Python `enumerate(xs, start=i)`. -/
def pyEnumerateFrom {α : Type} : Nat → List α → List (Nat × α)
  | _, [] => []
  | i, a :: as => (i, a) :: pyEnumerateFrom (i + 1) as

/-- The qualification test as the spec words it: after trimming, the line
starts with "1." or with "-". -/
def specQualifies (line : PyStr) : Bool :=
  pyStartswith "1.".data (pyStrip line) || pyStartswith "-".data (pyStrip line)

/-- The qualification test the code actually performs, phrased on the raw
line: it starts with "1." or with "-" (no trimming). -/
def amendedQualifies (line : PyStr) : Bool :=
  pyStartswith "1.".data line || pyStartswith "-".data line

/-- Priority assignment as both the spec and the code word it: keyword buckets
first, then the fixed MoSCoW sequence indexed by the 1-based line index mod 4. -/
def specBucket (idx : Nat) (line : PyStr) : PyStr :=
  if pyIn "must".data (pyLower line) then "Must".data
  else if pyIn "should".data (pyLower line) then "Should".data
  else if pyIn "could".data (pyLower line) then "Could".data
  else MOSCOW_CATEGORIES.getD (idx % 4) []

/-- Priorities predicted by the claim as stated (with trimming in the
qualification test). -/
def claimPriorities (md : PyStr) : List PyStr :=
  ((pyEnumerateFrom 1 (pySplitlines md)).filter (fun p => specQualifies p.2)).map
    (fun p => specBucket p.1 p.2)

/-- Priorities predicted by the amended claim (no trimming). -/
def amendedPriorities (md : PyStr) : List PyStr :=
  ((pyEnumerateFrom 1 (pySplitlines md)).filter (fun p => amendedQualifies p.2)).map
    (fun p => specBucket p.1 p.2)

/-! ## textwrap.dedent (CPython), needed by AIClient._mock_response -/

def isSpaceTab (c : Char) : Bool := c = ' ' || c = '\t'

/-- Python `text.split('\n')`. -/
def splitOnNLAux : PyStr → PyStr → List PyStr
  | [], acc => [acc.reverse]
  | '\n' :: rest, acc => acc.reverse :: splitOnNLAux rest []
  | c :: rest, acc => splitOnNLAux rest (c :: acc)

def splitOnNL (s : PyStr) : List PyStr := splitOnNLAux s []

/-- Python `'\n'.join(lines)`. -/
def joinNL (lines : List PyStr) : PyStr := List.intercalate ['\n'] lines

def commonPrefix : PyStr → PyStr → PyStr
  | x :: xs, y :: ys => if x = y then x :: commonPrefix xs ys else []
  | _, _ => []

/-- The margin fold of `textwrap.dedent`: scans the leading whitespace of each
line holding a non-whitespace character (CPython `_leading_whitespace_re`)
and keeps the common margin. -/
def dedentMargin : Option PyStr → List PyStr → Option PyStr
  | m, [] => m
  | m, l :: ls =>
    if l.any (fun c => !(isSpaceTab c)) then
      let indent := l.takeWhile isSpaceTab
      let m' : Option PyStr := match m with
        | none => some indent
        | some mm =>
          if mm.isPrefixOf indent then some mm
          else if indent.isPrefixOf mm then some indent
          else some (commonPrefix mm indent)
      dedentMargin m' ls
    else dedentMargin m ls

/-- `textwrap.dedent`: whitespace-only lines are first normalized to empty
(CPython `_whitespace_only_re.sub('', text)`), the common margin of the
remaining lines is computed, and, when non-empty, removed from the start of
every line that carries it. -/
def pyDedent (text : PyStr) : PyStr :=
  let lines := (splitOnNL text).map
    (fun l => if !l.isEmpty && l.all isSpaceTab then [] else l)
  match dedentMargin none lines with
  | none => joinNL lines
  | some [] => joinNL lines
  | some m => joinNL (lines.map (fun l => if m.isPrefixOf l then l.drop m.length else l))

/-! ## app/services/visuals.py -/

/-- `default_mermaid` from app/services/visuals.py. -/
def default_mermaid (project_name : PyStr) : PyStr :=
  "```mermaid\nmindmap\n  root((".data ++ project_name ++
  "))\n    Planning\n      Gather requirements\n      Align stakeholders\n    Delivery\n      Build solution\n      Validate outcomes\n    Risks\n      Dependencies\n      Compliance\n```".data

/-! ## app/services/ai.py -/

structure AIPayload where
  project_name : PyStr
  industry : PyStr
  business_problem : PyStr
  goals : PyStr
  stakeholders : PyStr
  timelines : PyStr
deriving DecidableEq, Repr

structure StakeholderSummaries where
  executives : PyStr
  technical_team : PyStr
  non_technical : PyStr
deriving DecidableEq, Repr

/-- The Python orchestrator returns a dict; `gap_analysis` and
`stakeholder_summaries` are either the empty dict `{}` (live path, modelled
`none`) or fully populated (mock path, modelled `some`). -/
structure AIOutput where
  brd_markdown : PyStr
  mermaid_diagram : PyStr
  gap_analysis : Option GapAnalysis
  stakeholder_summaries : Option StakeholderSummaries
deriving DecidableEq, Repr

/-- The raw f-string handed to `textwrap.dedent` in `_mock_response`: a
leading newline, then every non-blank line indented by twelve spaces, and a
trailing line of twelve spaces. -/
def mockBrdRaw (p : AIPayload) (reference_summary : PyStr) : PyStr :=
  let sp : PyStr := "            ".data
  joinNL [[],
    sp ++ "# ".data ++ p.project_name ++ " - Business Requirements Document".data,
    [],
    sp ++ "## Executive Summary".data,
    sp ++ "This project addresses ".data ++ p.business_problem ++
      " with the primary goal of ".data ++ p.goals ++
      ". The initiative targets the ".data ++ p.industry ++
      " industry and involves stakeholders: ".data ++ p.stakeholders ++ ".".data,
    [],
    sp ++ "## Business Objectives".data,
    sp ++ "- Align project outcomes with stated goals.".data,
    sp ++ "- Deliver measurable value within ".data ++ p.timelines ++ ".".data,
    [],
    sp ++ "## Scope".data,
    sp ++ "**In Scope**".data,
    sp ++ "- Core functional capabilities required to meet goals.".data,
    [],
    sp ++ "**Out of Scope**".data,
    sp ++ "- Items not aligned to MVP timeline.".data,
    [],
    sp ++ "## Functional Requirements".data,
    sp ++ "1. System must support documentation ingestion and analysis.".data,
    sp ++ "2. Platform generates BRDs using AI guidance.".data,
    [],
    sp ++ "## Non-Functional Requirements".data,
    sp ++ "- Ensure data is stored securely on local infrastructure.".data,
    [],
    sp ++ "## Assumptions".data,
    sp ++ "- Stakeholders will provide timely feedback.".data,
    [],
    sp ++ "## Constraints".data,
    sp ++ "- Limited access to production-like data during MVP.".data,
    [],
    sp ++ "## Acceptance Criteria".data,
    sp ++ "```gherkin".data,
    sp ++ "Scenario: Generate BRD draft".data,
    sp ++ "  Given a project with uploaded reference documents".data,
    sp ++ "  When the analyst triggers the AI generation".data,
    sp ++ "  Then a BRD draft is produced with key sections populated".data,
    sp ++ "```".data,
    [],
    sp ++ "## Risks & Mitigation Strategies".data,
    sp ++ "- Risk: Delayed stakeholder approvals. Mitigation: Establish review checkpoints.".data,
    [],
    sp ++ "## Timeline Overview".data,
    sp ++ "The project follows the stated timelines: ".data ++ p.timelines ++ ".".data,
    [],
    sp ++ "## Dependencies".data,
    sp ++ "- Timely availability of SMEs and uploaded reference materials.".data,
    [],
    sp ++ "## Gap Analysis".data,
    sp ++ "- Missing Information: Detailed performance requirements.".data,
    sp ++ "- Clarifying Questions: What SLAs are expected post-launch?".data,
    [],
    sp ++ "## Stakeholder Summaries".data,
    sp ++ "- Executives: Focus on strategic alignment and ROI.".data,
    sp ++ "- Technical Team: Emphasize system integrations and data flows.".data,
    sp ++ "- Non-Technical: Highlight user outcomes and rollout plan.".data,
    [],
    sp ++ "## Reference Highlights".data,
    sp ++ (if reference_summary.isEmpty then "No references provided.".data
           else reference_summary),
    sp]

/-- The raw (constant) string handed to `textwrap.dedent` for the mock
mermaid diagram. -/
def mockMermaidRaw : PyStr :=
  let sp : PyStr := "            ".data
  joinNL [[],
    sp ++ "```mermaid".data,
    sp ++ "mindmap".data,
    sp ++ "  root((Project Vision))".data,
    sp ++ "    Objectives".data,
    sp ++ "      Deliver BRD automation".data,
    sp ++ "      Support stakeholder collaboration".data,
    sp ++ "    Requirements".data,
    sp ++ "      Functional".data,
    sp ++ "        Document ingestion".data,
    sp ++ "        AI draft generation".data,
    sp ++ "      Non-Functional".data,
    sp ++ "        Security".data,
    sp ++ "        Performance".data,
    sp ++ "    Timeline".data,
    sp ++ "      Planning".data,
    sp ++ "      Execution".data,
    sp ++ "      Launch".data,
    sp ++ "```".data,
    sp]

/-- `AIClient._mock_response`: a pure function of payload and references. -/
def mockResponse (payload : AIPayload) (references : List PyStr) : AIOutput :=
  let reference_summary := joinNL (references.map (fun ref => ref.take 2000))
  { brd_markdown := pyStrip (pyDedent (mockBrdRaw payload reference_summary)),
    mermaid_diagram := pyStrip (pyDedent mockMermaidRaw),
    gap_analysis := some
      { missing_information := ["Detailed reporting requirements".data,
                                "Integration specifications".data],
        clarifying_questions := ["Are there compliance considerations?".data,
                                 "What user roles require access?".data] },
    stakeholder_summaries := some
      { executives := "Concise overview highlighting strategic benefits and ROI expectations.".data,
        technical_team := "Focus on integrations, data flows, and infrastructure impacts.".data,
        non_technical := "Emphasize user experience improvements and training considerations.".data } }

structure Settings where
  openai_api_key : Option PyStr
  allow_mock_ai : Bool
deriving DecidableEq, Repr

instance {ε α : Type} [DecidableEq ε] [DecidableEq α] : DecidableEq (Except ε α) := fun a b =>
  match a, b with
  | .error x, .error y =>
      decidable_of_iff (x = y) ⟨fun h => by rw [h], fun h => by cases h; rfl⟩
  | .error _, .ok _ => .isFalse (fun h => by cases h)
  | .ok _, .error _ => .isFalse (fun h => by cases h)
  | .ok x, .ok y =>
      decidable_of_iff (x = y) ⟨fun h => by rw [h], fun h => by cases h; rfl⟩

/-- Environment of one `AIClient.generate_brd` call: whether the `openai`
module is importable, and the outcome of the live network call if one were
made (`Except.error` carries the raised exception's text). -/
structure AIEnv where
  openai_module_available : Bool
  live_call : Except PyStr PyStr
deriving DecidableEq, Repr

/-- `AIClient.__init__` configures a real client iff the module imported and
the api key is truthy (present and non-empty). -/
def hasClient (env : AIEnv) (s : Settings) : Bool :=
  env.openai_module_available &&
    (match s.openai_api_key with
     | none => false
     | some k => !k.isEmpty)

inductive GenError where
  | BRDGenerationError (msg : PyStr)
deriving DecidableEq, Repr

/-- `AIClient.generate_brd`.  The prompt built by `_format_prompt` only feeds
the live network call, whose outcome is part of the environment, so it does
not appear here. -/
def generate_brd_model (env : AIEnv) (s : Settings) (payload : AIPayload)
    (references : List PyStr) : Except GenError AIOutput :=
  if hasClient env s = false then
    if s.allow_mock_ai = false then
      .error (.BRDGenerationError
        "OpenAI client not available and mock responses disabled.".data)
    else .ok (mockResponse payload references)
  else
    match env.live_call with
    | .ok content =>
        .ok { brd_markdown := content, mermaid_diagram := [],
              gap_analysis := none, stakeholder_summaries := none }
    | .error exc =>
        if s.allow_mock_ai then .ok (mockResponse payload references)
        else .error (.BRDGenerationError exc)

/-! ## app/models/project.py -/

structure Document where
  id : PyStr
  filename : PyStr
  content_type : PyStr
  text : PyStr
  metadata : List (PyStr × PyStr)
deriving DecidableEq, Repr

/-- `ProjectVersion`; `datetime` values are modelled as abstract timestamps.
`priority_matrix` is `Optional` in the dataclass but every version built by
the generate route carries a list, modelled here directly. -/
structure ProjectVersion where
  id : PyStr
  created_at : Nat
  brd_markdown : PyStr
  mermaid_diagram : PyStr
  gap_analysis : GapAnalysis
  stakeholder_summaries : StakeholderSummaries
  priority_matrix : List PriorityEntry
deriving DecidableEq, Repr

structure Project where
  id : PyStr
  name : PyStr
  industry : PyStr
  business_problem : PyStr
  goals : PyStr
  stakeholders : PyStr
  timelines : PyStr
  created_at : Nat
  updated_at : Nat
  document_ids : List PyStr
  versions : List ProjectVersion
deriving DecidableEq, Repr

/-- `Project.add_version`: insert at index 0, stamp `updated_at`. -/
def Project.add_version (p : Project) (version : ProjectVersion) : Project :=
  { p with versions := version :: p.versions, updated_at := version.created_at }

/-- `Project.add_document`: append only when not already present. -/
def Project.add_document (p : Project) (document_id : PyStr) : Project :=
  if p.document_ids.contains document_id then p
  else { p with document_ids := p.document_ids ++ [document_id] }

/-- `ProjectRepository.create` (app/services/storage.py): fresh id, both
timestamps set to now, empty document and version lists. -/
structure ProjectCreatePayload where
  name : PyStr
  industry : PyStr
  business_problem : PyStr
  goals : PyStr
  stakeholders : PyStr
  timelines : PyStr
deriving DecidableEq, Repr

def createProject (id : PyStr) (now : Nat) (payload : ProjectCreatePayload) : Project :=
  { id := id, name := payload.name, industry := payload.industry,
    business_problem := payload.business_problem, goals := payload.goals,
    stakeholders := payload.stakeholders, timelines := payload.timelines,
    created_at := now, updated_at := now, document_ids := [], versions := [] }

/-! ## app/api/projects.py : generate_project_brd -/

structure GenerateRequest where
  document_ids : List PyStr
  refresh : Bool
deriving DecidableEq, Repr

/-- `DocumentRepository.bulk_get`: look each id up in the stored data,
silently skipping ids that do not resolve. -/
def bulk_get (store : PyStr → Option Document) (ids : List PyStr) : List Document :=
  ids.filterMap store

/-- Environment of one generate request: the uuid drawn for the new version
and the `datetime.utcnow()` reading, plus the AI-call environment. -/
structure GenEnv where
  version_id : PyStr
  now : Nat
  ai : AIEnv
deriving DecidableEq, Repr

/-- `generate_project_brd` (app/api/projects.py), after the project has been
fetched: resolves reference documents, invokes the orchestrator, always
recomputes gap analysis and priorities with the Text Analyzer, backfills only
the diagram and the stakeholder summaries, prepends the new version and
associates explicitly supplied document ids. -/
def generate_project_brd (store : PyStr → Option Document) (s : Settings)
    (env : GenEnv) (project : Project) (request : GenerateRequest) :
    Except GenError (Project × ProjectVersion) :=
  let documents :=
    if !request.document_ids.isEmpty then bulk_get store request.document_ids
    else bulk_get store project.document_ids
  let references := documents.map (fun doc => doc.text)
  let payload : AIPayload :=
    { project_name := project.name, industry := project.industry,
      business_problem := project.business_problem, goals := project.goals,
      stakeholders := project.stakeholders, timelines := project.timelines }
  (generate_brd_model env.ai s payload references).map fun ai_output =>
    let gap_analysis := build_gap_analysis ai_output.brd_markdown
    let priorities := prioritize_requirements ai_output.brd_markdown
    let mermaid_diagram :=
      if ai_output.mermaid_diagram.isEmpty then default_mermaid project.name
      else ai_output.mermaid_diagram
    let stakeholder_summaries :=
      match ai_output.stakeholder_summaries with
      | some ss => ss
      | none =>
        { executives := "Strategic overview pending clarification.".data,
          technical_team := "Technical deep dive to be refined after architecture review.".data,
          non_technical := "User-facing summary will be refined with stakeholder input.".data }
    let version : ProjectVersion :=
      { id := env.version_id, created_at := env.now,
        brd_markdown := ai_output.brd_markdown, mermaid_diagram := mermaid_diagram,
        gap_analysis := gap_analysis, stakeholder_summaries := stakeholder_summaries,
        priority_matrix := priorities }
    let project := project.add_version version
    let project :=
      if !request.document_ids.isEmpty then
        request.document_ids.foldl Project.add_document project
      else project
    (project, version)

/-! ## app/services/exporter.py and app/api/projects.py : export -/

inductive ExportError where
  | NotFound (detail : PyStr)
  | UnsupportedFormat (msg : PyStr)
deriving DecidableEq, Repr

structure ExportRequest where
  version_id : Option PyStr
  export_format : PyStr
deriving DecidableEq, Repr

/-- `export_brd` (app/services/exporter.py): the format is dispatched first;
the docx/pdf renderers (python-docx, reportlab) are external collaborators
passed as functions, invoked only on a recognized format. -/
def export_brd {β : Type} (docxRender pdfRender : PyStr → β)
    (brd_markdown : PyStr) (export_format : PyStr) : Except ExportError (β × PyStr) :=
  if export_format = "docx".data then
    .ok (docxRender brd_markdown,
         "application/vnd.openxmlformats-officedocument.wordprocessingml.document".data)
  else if export_format = "pdf".data then
    .ok (pdfRender brd_markdown, "application/pdf".data)
  else .error (.UnsupportedFormat "Unsupported export format".data)

/-- Python `s.replace(' ', '_')`. -/
def pyReplaceSpace (s : PyStr) : PyStr := s.map (fun c => if c = ' ' then '_' else c)

/-- `export_project` (app/api/projects.py), after the project has been
fetched: scan for an explicitly requested version id, fall back to
`versions[0]` whenever the scan found nothing, and fail only when the project
has no versions at all.  Returns ((bytes, media type), attachment filename). -/
def export_project {β : Type} (docxRender pdfRender : PyStr → β)
    (project : Project) (request : ExportRequest) :
    Except ExportError ((β × PyStr) × PyStr) :=
  let found : Option ProjectVersion :=
    match request.version_id with
    | some vid => project.versions.find? (fun candidate => candidate.id = vid)
    | none => none
  let chosen : Except ExportError ProjectVersion :=
    match found with
    | some version => .ok version
    | none =>
      match project.versions with
      | [] => .error (.NotFound "No versions available for export".data)
      | v :: _ => .ok v
  match chosen with
  | .error e => .error e
  | .ok version =>
    (export_brd docxRender pdfRender version.brd_markdown request.export_format).map
      (fun out => (out, pyReplaceSpace project.name ++ "_BRD.".data ++ request.export_format))

/-! ## CPython difflib, as used by app/services/diff.py

`render_diff` calls `difflib.unified_diff(a.splitlines(), b.splitlines(),
fromfile="v1", tofile="v2", lineterm="")`, which runs
`SequenceMatcher(None, a, b)`: the junk set is empty (isjunk is None) and
autojunk is on.  The embedding below follows difflib.py of CPython 3.11. -/

section Difflib

variable {α : Type} [DecidableEq α] [Inhabited α]

/-- Length of the `b2j` bucket of `v` before purging (number of occurrences
of `v` in `b`). -/
def smCount (b : List α) (v : α) : Nat := (b.filter (fun x => x = v)).length

/-- The autojunk popularity test of `SequenceMatcher.__chain_b`: applies only
when `len(b) >= 200`, and drops elements occurring more than `n // 100 + 1`
times. -/
def smPopular (b : List α) (v : α) : Bool :=
  200 ≤ b.length && b.length / 100 + 1 < smCount b v

/-- `b2j` after `__chain_b`: the ascending positions of `v` in `b`, with
popular buckets deleted (the junk purge is vacuous: isjunk is None). -/
def smB2j (b : List α) (v : α) : List Nat :=
  if smPopular b v then []
  else ((b.enum).filter (fun p => p.2 = v)).map (fun p => p.1)

/-- The junk membership test `self.bjunk.__contains__`; `bjunk` is empty
because `unified_diff` constructs `SequenceMatcher(None, a, b)`. -/
def smIsBJunk (_v : α) : Bool := false

/-- Inner loop of `find_longest_match` over the `b2j` bucket of `a[i]`
(ascending): `j < blo` is Python's `continue`, `j >= bhi` its `break`.
`j2len` is the previous row read at `j-1` with default 0 (the `if j = 0`
branch reproduces the `j2lenget(-1, 0) = 0` read), `newj2len` the row being
built.  Python records the best as `(i-k+1, j-k+1, k)`; since `k ≤ i+1` and
`k ≤ j+1` whenever a cell is recorded, `i + 1 - k` is the same value in Nat
arithmetic. -/
def flmInner (blo bhi i : Nat) :
    List Nat → (Nat → Nat) → (Nat → Nat) → Nat × Nat × Nat →
    ((Nat → Nat) × (Nat × Nat × Nat))
  | [], _, newj2len, best => (newj2len, best)
  | j :: js, j2len, newj2len, best =>
    if j < blo then flmInner blo bhi i js j2len newj2len best
    else if bhi ≤ j then (newj2len, best)
    else
      let k := (if j = 0 then 0 else j2len (j - 1)) + 1
      let newj2len' : Nat → Nat := fun x => if x = j then k else newj2len x
      let best' := if best.2.2 < k then (i + 1 - k, j + 1 - k, k) else best
      flmInner blo bhi i js j2len newj2len' best'

/-- Rows `i, i+1, ...` of the `find_longest_match` dynamic program (the outer
`for i in range(alo, ahi)`, entered with `i = alo` and `fuel = ahi - alo`). -/
def flmRows (a b : List α) (blo bhi : Nat) :
    Nat → Nat → (Nat → Nat) → Nat × Nat × Nat → Nat × Nat × Nat
  | _, 0, _, best => best
  | i, fuel + 1, j2len, best =>
    let step := flmInner blo bhi i (smB2j b (a.getD i default)) j2len (fun _ => 0) best
    flmRows a b blo bhi (i + 1) fuel step.1 step.2

/-- The two backward extension loops of `find_longest_match` (`useJunk` is
false for the non-junk pass and true for the junk pass). -/
def flmExtendLower (a b : List α) (alo blo : Nat) (useJunk : Bool) :
    Nat → Nat → Nat → Nat × Nat × Nat
  | besti, bestj, bestsize =>
    if h : alo < besti ∧ blo < bestj
        ∧ smIsBJunk (b.getD (bestj - 1) default) = useJunk
        ∧ a.getD (besti - 1) default = b.getD (bestj - 1) default then
      flmExtendLower a b alo blo useJunk (besti - 1) (bestj - 1) (bestsize + 1)
    else (besti, bestj, bestsize)
termination_by besti _ _ => besti
decreasing_by omega

/-- The two forward extension loops of `find_longest_match`. -/
def flmExtendUpper (a b : List α) (ahi bhi : Nat) (useJunk : Bool) :
    Nat → Nat → Nat → Nat × Nat × Nat
  | besti, bestj, bestsize =>
    if h : besti + bestsize < ahi ∧ bestj + bestsize < bhi
        ∧ smIsBJunk (b.getD (bestj + bestsize) default) = useJunk
        ∧ a.getD (besti + bestsize) default = b.getD (bestj + bestsize) default then
      flmExtendUpper a b ahi bhi useJunk besti bestj (bestsize + 1)
    else (besti, bestj, bestsize)
termination_by besti _ bestsize => ahi - (besti + bestsize)
decreasing_by omega

/-- `SequenceMatcher.find_longest_match`. -/
def find_longest_match (a b : List α) (alo ahi blo bhi : Nat) : Nat × Nat × Nat :=
  let best := flmRows a b blo bhi alo (ahi - alo) (fun _ => 0) (alo, blo, 0)
  let best := flmExtendLower a b alo blo false best.1 best.2.1 best.2.2
  let best := flmExtendUpper a b ahi bhi false best.1 best.2.1 best.2.2
  let best := flmExtendLower a b alo blo true best.1 best.2.1 best.2.2
  flmExtendUpper a b ahi bhi true best.1 best.2.1 best.2.2

/-- Invariant on the running best match: either still the initial
`(alo, blo, 0)`, or a recorded match lying inside both ranges. -/
def FlmBestInv (alo ahi blo bhi : Nat) (best : Nat × Nat × Nat) : Prop :=
  best = (alo, blo, 0)
  ∨ (alo ≤ best.1 ∧ blo ≤ best.2.1 ∧ 0 < best.2.2
     ∧ best.1 + best.2.2 ≤ ahi ∧ best.2.1 + best.2.2 ≤ bhi)

/-- Invariant on a `j2len` row built before reaching row `i`. -/
def FlmRowInv (alo blo i : Nat) (j2len : Nat → Nat) : Prop :=
  ∀ x, j2len x ≠ 0 → blo ≤ x ∧ j2len x + blo ≤ x + 1 ∧ j2len x + alo ≤ i

lemma flmInner_bounds (alo ahi blo bhi i : Nat) (halo : alo ≤ i) (hii : i < ahi)
    (j2len : Nat → Nat) (hold : FlmRowInv alo blo i j2len) :
    ∀ (js : List Nat) (newj2len : Nat → Nat) (best : Nat × Nat × Nat),
    FlmRowInv alo blo (i + 1) newj2len →
    FlmBestInv alo ahi blo bhi best →
    FlmRowInv alo blo (i + 1) (flmInner blo bhi i js j2len newj2len best).1
    ∧ FlmBestInv alo ahi blo bhi (flmInner blo bhi i js j2len newj2len best).2 := by
  intro js
  induction js with
  | nil => intro newj2len best hnew hbest; exact ⟨hnew, hbest⟩
  | cons j js ih =>
    intro newj2len best hnew hbest
    rw [flmInner]
    by_cases h1 : j < blo
    · rw [if_pos h1]
      exact ih newj2len best hnew hbest
    · rw [if_neg h1]
      by_cases h2 : bhi ≤ j
      · rw [if_pos h2]
        exact ⟨hnew, hbest⟩
      · rw [if_neg h2]
        have hblo : blo ≤ j := by omega
        have hkb : (if j = 0 then 0 else j2len (j - 1)) + 1 + blo ≤ j + 1 := by
          split
          next hj => omega
          next hj =>
            by_cases hz : j2len (j - 1) = 0
            · rw [hz]; omega
            · have := hold (j - 1) hz; omega
        have hka : (if j = 0 then 0 else j2len (j - 1)) + 1 + alo ≤ i + 1 := by
          split
          next hj => omega
          next hj =>
            by_cases hz : j2len (j - 1) = 0
            · rw [hz]; omega
            · have := hold (j - 1) hz; omega
        refine ih _ _ ?_ ?_
        · intro x hx
          dsimp only at hx
          by_cases hxj : x = j
          · subst hxj
            rw [if_pos rfl] at hx
            refine ⟨hblo, ?_, ?_⟩ <;> (dsimp only; rw [if_pos rfl]; omega)
          · rw [if_neg hxj] at hx
            have := hnew x hx
            refine ⟨this.1, ?_, ?_⟩ <;> (dsimp only; rw [if_neg hxj]; omega)
        · by_cases hlt : best.2.2 < (if j = 0 then 0 else j2len (j - 1)) + 1
          · dsimp only
            rw [if_pos hlt]
            right
            refine ⟨?_, ?_, ?_, ?_, ?_⟩ <;> (dsimp only; omega)
          · dsimp only
            rw [if_neg hlt]
            exact hbest

lemma flmRows_bounds (a b : List α) (alo ahi blo bhi : Nat) :
    ∀ (fuel i : Nat) (j2len : Nat → Nat) (best : Nat × Nat × Nat),
    alo ≤ i → fuel ≤ ahi - i →
    FlmRowInv alo blo i j2len →
    FlmBestInv alo ahi blo bhi best →
    FlmBestInv alo ahi blo bhi (flmRows a b blo bhi i fuel j2len best) := by
  intro fuel
  induction fuel with
  | zero => intro i j2len best _ _ _ hbest; exact hbest
  | succ fuel ih =>
    intro i j2len best halo hfuel hold hbest
    rw [flmRows]
    have hii : i < ahi := by omega
    have step := flmInner_bounds alo ahi blo bhi i halo hii j2len hold
      (smB2j b (a.getD i default)) (fun _ => 0) best
      (fun x hx => absurd rfl hx) hbest
    exact ih (i + 1) _ _ (by omega) (by omega)
      (fun x hx => step.1 x hx) step.2

lemma flmExtendLower_inv (a b : List α) (alo blo ahi bhi : Nat) (uj : Bool) :
    ∀ (besti bestj bestsize : Nat),
    FlmBestInv alo ahi blo bhi (besti, bestj, bestsize) →
    FlmBestInv alo ahi blo bhi (flmExtendLower a b alo blo uj besti bestj bestsize) := by
  have H : ∀ (fuel besti bestj bestsize : Nat), besti ≤ fuel →
      FlmBestInv alo ahi blo bhi (besti, bestj, bestsize) →
      FlmBestInv alo ahi blo bhi (flmExtendLower a b alo blo uj besti bestj bestsize) := by
    intro fuel
    induction fuel with
    | zero =>
      intro besti bestj bestsize hle hbest
      rw [flmExtendLower]
      split
      next h => omega
      next h => exact hbest
    | succ fuel ih =>
      intro besti bestj bestsize hle hbest
      rw [flmExtendLower]
      split
      next h =>
        refine ih (besti - 1) (bestj - 1) (bestsize + 1) (by omega) ?_
        rcases hbest with heq | ⟨hb1, hb2, hb3, hb4, hb5⟩
        · exfalso
          have : besti = alo := congrArg Prod.fst heq
          omega
        · dsimp only at hb1 hb2 hb3 hb4 hb5
          right
          refine ⟨?_, ?_, ?_, ?_, ?_⟩ <;> (dsimp only; omega)
      next h => exact hbest
  exact fun besti bestj bestsize hbest => H besti besti bestj bestsize le_rfl hbest

lemma flmExtendUpper_inv (a b : List α) (alo blo ahi bhi : Nat) (uj : Bool) :
    ∀ (besti bestj bestsize : Nat),
    FlmBestInv alo ahi blo bhi (besti, bestj, bestsize) →
    FlmBestInv alo ahi blo bhi (flmExtendUpper a b ahi bhi uj besti bestj bestsize) := by
  have H : ∀ (fuel besti bestj bestsize : Nat), ahi - (besti + bestsize) ≤ fuel →
      FlmBestInv alo ahi blo bhi (besti, bestj, bestsize) →
      FlmBestInv alo ahi blo bhi (flmExtendUpper a b ahi bhi uj besti bestj bestsize) := by
    intro fuel
    induction fuel with
    | zero =>
      intro besti bestj bestsize hle hbest
      rw [flmExtendUpper]
      split
      next h => omega
      next h => exact hbest
    | succ fuel ih =>
      intro besti bestj bestsize hle hbest
      rw [flmExtendUpper]
      split
      next h =>
        refine ih besti bestj (bestsize + 1) (by omega) ?_
        rcases hbest with heq | ⟨hb1, hb2, hb3, hb4, hb5⟩
        · have hbi : besti = alo := congrArg Prod.fst heq
          have hbj : bestj = blo := congrArg (fun t => t.2.1) heq
          have hbs : bestsize = 0 := congrArg (fun t => t.2.2) heq
          right
          refine ⟨?_, ?_, ?_, ?_, ?_⟩ <;> (dsimp only; omega)
        · dsimp only at hb1 hb2 hb3 hb4 hb5
          right
          refine ⟨?_, ?_, ?_, ?_, ?_⟩ <;> (dsimp only; omega)
      next h => exact hbest
  exact fun besti bestj bestsize hbest => H (ahi - (besti + bestsize)) besti bestj bestsize le_rfl hbest

/-- The best triple returned by `find_longest_match` lies inside the ranges
(or is the degenerate `(alo, blo, 0)`): needed to run the
`get_matching_blocks` work queue to completion. -/
theorem flm_bestInv (a b : List α) (alo ahi blo bhi : Nat) :
    FlmBestInv alo ahi blo bhi (find_longest_match a b alo ahi blo bhi) := by
  rw [find_longest_match]
  have h0 : FlmBestInv alo ahi blo bhi (alo, blo, 0) := Or.inl rfl
  have h1 := flmRows_bounds a b alo ahi blo bhi (ahi - alo) alo (fun _ => 0) (alo, blo, 0)
    le_rfl (by omega) (fun x hx => absurd rfl hx) h0
  have h2 := flmExtendLower_inv a b alo blo ahi bhi false _ _ _ h1
  have h3 := flmExtendUpper_inv a b alo blo ahi bhi false _ _ _ h2
  have h4 := flmExtendLower_inv a b alo blo ahi bhi true _ _ _ h3
  exact flmExtendUpper_inv a b alo blo ahi bhi true _ _ _ h4

/-- Measure of the `get_matching_blocks` work queue. -/
def mbMeasure (queue : List (Nat × Nat × Nat × Nat)) : Nat :=
  (queue.map (fun q => q.2.1 - q.1 + (q.2.2.2 - q.2.2.1) + 1)).sum

/-- The work-queue loop of `get_matching_blocks`.  Python pops from the back
of the list and pushes at the back; the queue is modelled with its head as
the next element popped, so the subrange Python appends second is consed
last.  `blocks` accumulates in append order, as in the source. -/
def matchingBlocksLoop (a b : List α) :
    List (Nat × Nat × Nat × Nat) → List (Nat × Nat × Nat) → List (Nat × Nat × Nat)
  | [], blocks => blocks
  | (alo, ahi, blo, bhi) :: queue, blocks =>
    let m := find_longest_match a b alo ahi blo bhi
    if _hk : m.2.2 ≠ 0 then
      let queue₁ := if alo < m.1 ∧ blo < m.2.1 then (alo, m.1, blo, m.2.1) :: queue else queue
      let queue₂ := if m.1 + m.2.2 < ahi ∧ m.2.1 + m.2.2 < bhi then
          (m.1 + m.2.2, ahi, m.2.1 + m.2.2, bhi) :: queue₁ else queue₁
      matchingBlocksLoop a b queue₂ (blocks ++ [m])
    else matchingBlocksLoop a b queue blocks
termination_by queue _ => mbMeasure queue
decreasing_by
  · rcases flm_bestInv a b alo ahi blo bhi with heq | ⟨h1, h2, h3, h4, h5⟩
    · exact absurd (congrArg (fun t => t.2.2) heq) _hk
    · simp only [mbMeasure, List.map_cons, List.sum_cons]
      split <;> split <;> (try simp only [List.map_cons, List.sum_cons]) <;> omega
  · simp only [mbMeasure, List.map_cons, List.sum_cons]
    omega

/-- Lexicographic order on block triples: Python's `list.sort()` on tuples. -/
def blockLe (x y : Nat × Nat × Nat) : Bool :=
  decide (x.1 < y.1) || (decide (x.1 = y.1) &&
    (decide (x.2.1 < y.2.1) || (decide (x.2.1 = y.2.1) && decide (x.2.2 ≤ y.2.2))))

/-- The adjacent-block collapsing loop of `get_matching_blocks`. -/
def mbCollapseLoop : Nat → Nat → Nat → List (Nat × Nat × Nat) →
    List (Nat × Nat × Nat) → List (Nat × Nat × Nat)
  | i1, j1, k1, acc, [] => if k1 ≠ 0 then acc ++ [(i1, j1, k1)] else acc
  | i1, j1, k1, acc, (i2, j2, k2) :: rest =>
    if i1 + k1 = i2 ∧ j1 + k1 = j2 then mbCollapseLoop i1 j1 (k1 + k2) acc rest
    else mbCollapseLoop i2 j2 k2 (if k1 ≠ 0 then acc ++ [(i1, j1, k1)] else acc) rest

/-- `SequenceMatcher.get_matching_blocks` (Python's Timsort is stable, as is
`mergeSort`, so the sorted list coincides). -/
def get_matching_blocks (a b : List α) : List (Nat × Nat × Nat) :=
  let la := a.length
  let lb := b.length
  let blocks := (matchingBlocksLoop a b [(0, la, 0, lb)] []).mergeSort blockLe
  mbCollapseLoop 0 0 0 [] blocks ++ [(la, lb, 0)]

inductive DiffTag where
  | replace
  | delete
  | insert
  | equal
deriving DecidableEq, Repr

abbrev Opcode := DiffTag × Nat × Nat × Nat × Nat

/-- The loop of `SequenceMatcher.get_opcodes` (the `tag = ''` / `if tag:`
idiom becomes the if-chain producing zero or one tagged opcode). -/
def opcodesLoop : Nat → Nat → List (Nat × Nat × Nat) → List Opcode
  | _, _, [] => []
  | i, j, (ai, bj, size) :: rest =>
    (if i < ai ∧ j < bj then [(DiffTag.replace, i, ai, j, bj)]
     else if i < ai then [(DiffTag.delete, i, ai, j, bj)]
     else if j < bj then [(DiffTag.insert, i, ai, j, bj)]
     else [])
    ++ (if size ≠ 0 then [(DiffTag.equal, ai, ai + size, bj, bj + size)] else [])
    ++ opcodesLoop (ai + size) (bj + size) rest

def get_opcodes (a b : List α) : List Opcode :=
  opcodesLoop 0 0 (get_matching_blocks a b)

def shrinkFront (n : Nat) : Opcode → Opcode
  | (tag, i1, i2, j1, j2) => (tag, max i1 (i2 - n), i2, max j1 (j2 - n), j2)

def shrinkBack (n : Nat) : Opcode → Opcode
  | (tag, i1, i2, j1, j2) => (tag, i1, min i2 (i1 + n), j1, min j2 (j1 + n))

def modifyHeadIfEqual (n : Nat) : List Opcode → List Opcode
  | [] => []
  | c :: cs => if c.1 = DiffTag.equal then shrinkFront n c :: cs else c :: cs

def modifyLastIfEqual (n : Nat) : List Opcode → List Opcode
  | [] => []
  | [c] => if c.1 = DiffTag.equal then [shrinkBack n c] else [c]
  | c :: cs => c :: modifyLastIfEqual n cs

/-- The grouping loop of `get_grouped_opcodes`: a long equal range closes the
current group (shrunk to `n` lines of context) and opens the next one. -/
def groupLoop (n : Nat) : List Opcode → List Opcode → List (List Opcode)
  | group, [] =>
    match group with
    | [] => []
    | [g] => if g.1 = DiffTag.equal then [] else [[g]]
    | gs => [gs]
  | group, (tag, i1, i2, j1, j2) :: rest =>
    if tag = DiffTag.equal ∧ n + n < i2 - i1 then
      (group ++ [(tag, i1, min i2 (i1 + n), j1, min j2 (j1 + n))])
        :: groupLoop n [(tag, max i1 (i2 - n), i2, max j1 (j2 - n), j2)] rest
    else groupLoop n (group ++ [(tag, i1, i2, j1, j2)]) rest

/-- `SequenceMatcher.get_grouped_opcodes`. -/
def get_grouped_opcodes (a b : List α) (n : Nat) : List (List Opcode) :=
  let codes := get_opcodes a b
  let codes := if codes.isEmpty then [(DiffTag.equal, 0, 1, 0, 1)] else codes
  let codes := modifyHeadIfEqual n codes
  let codes := modifyLastIfEqual n codes
  groupLoop n [] codes

/-- Reference table for the self-comparison `SequenceMatcher(None, l, l)`
with `alo = blo = 0`, `ahi = bhi = l.length`: `rlF l (d+1) j` is the value
the dynamic program stores at column `j` while processing row `d` (0 when the
cell is not written). -/
def rlF (l : List α) : Nat → Nat → Nat
  | 0, _ => 0
  | d + 1, j =>
    if j ∈ smB2j l (l.getD d default)
    then (if j = 0 then 0 else rlF l d (j - 1)) + 1 else 0

end Difflib

/-- Python slice `l[i:j]` for non-negative indices. -/
def pySlice {β : Type} (l : List β) (i j : Nat) : List β := (l.take j).drop i

/-- `difflib._format_range_unified`. -/
def formatRangeUnified (start stop : Nat) : PyStr :=
  let beginning := start + 1
  let length := stop - start
  if length = 1 then (Nat.repr beginning).data
  else (Nat.repr (if length = 0 then beginning - 1 else beginning)).data
         ++ ",".data ++ (Nat.repr length).data

def unifiedDiffLine (a b : List PyStr) : Opcode → List PyStr
  | (tag, i1, i2, j1, j2) =>
    if tag = DiffTag.equal then (pySlice a i1 i2).map (fun line => ' ' :: line)
    else
      (if tag = DiffTag.replace ∨ tag = DiffTag.delete then
        (pySlice a i1 i2).map (fun line => '-' :: line) else [])
      ++ (if tag = DiffTag.replace ∨ tag = DiffTag.insert then
        (pySlice b j1 j2).map (fun line => '+' :: line) else [])

def dummyOpcode : Opcode := (DiffTag.equal, 0, 0, 0, 0)

/-- One hunk of `difflib.unified_diff`: the `@@` header and the prefixed
lines of its group. -/
def unifiedDiffHunk (a b : List PyStr) (lineterm : PyStr) (group : List Opcode) : List PyStr :=
  let first := group.headD dummyOpcode
  let last := group.getLastD dummyOpcode
  ("@@ -".data ++ formatRangeUnified first.2.1 last.2.2.1
     ++ " +".data ++ formatRangeUnified first.2.2.2.1 last.2.2.2.2
     ++ " @@".data ++ lineterm)
  :: group.flatMap (unifiedDiffLine a b)

/-- `difflib.unified_diff` with empty `fromfiledate`/`tofiledate` (as called
by `render_diff`): the two file headers appear before the first group only. -/
def unified_diff (a b : List PyStr) (fromfile tofile : PyStr) (n : Nat)
    (lineterm : PyStr) : List PyStr :=
  match get_grouped_opcodes a b n with
  | [] => []
  | groups =>
    ("--- ".data ++ fromfile ++ lineterm)
      :: ("+++ ".data ++ tofile ++ lineterm)
      :: groups.flatMap (unifiedDiffHunk a b lineterm)

/-- `render_diff` from app/services/diff.py. -/
def render_diff (a b : PyStr) : PyStr :=
  joinNL (unified_diff (pySplitlines a) (pySplitlines b) "v1".data "v2".data 3 [])

/-! ## Concrete inputs used by counterexamples and witnesses -/

/-! ## Concrete inputs used by counterexamples and witnesses -/

def cexCreatePayload : ProjectCreatePayload :=
  { name := "x".data, industry := "x".data, business_problem := "x".data,
    goals := "x".data, stakeholders := "x".data, timelines := "x".data }

def cexProject : Project := createProject "p".data 0 cexCreatePayload

def cexAIPayload : AIPayload :=
  { project_name := "x".data, industry := "x".data, business_problem := "x".data,
    goals := "x".data, stakeholders := "x".data, timelines := "x".data }

/-- The fixed gap analysis the mock path supplies. -/
def cexMockGap : GapAnalysis :=
  { missing_information := ["Detailed reporting requirements".data,
                            "Integration specifications".data],
    clarifying_questions := ["Are there compliance considerations?".data,
                             "What user roles require access?".data] }

def mockSettings : Settings := { openai_api_key := none, allow_mock_ai := true }

def mockAIEnv : AIEnv := { openai_module_available := false, live_call := .error "boom".data }

def mockGenEnv : GenEnv := { version_id := "v".data, now := 1, ai := mockAIEnv }

def liveSettings : Settings := { openai_api_key := some "k".data, allow_mock_ai := true }

def liveAIEnv : AIEnv := { openai_module_available := true, live_call := .ok "hello".data }

def liveGenEnv : GenEnv := { version_id := "v".data, now := 1, ai := liveAIEnv }

def emptyStore : PyStr → Option Document := fun _ => none

def noDocsRequest : GenerateRequest := { document_ids := [], refresh := false }

def cexVersion : ProjectVersion :=
  { id := "v1".data, created_at := 1, brd_markdown := "hello".data,
    mermaid_diagram := "m".data,
    gap_analysis := { missing_information := [], clarifying_questions := [] },
    stakeholder_summaries :=
      { executives := "e".data, technical_team := "t".data, non_technical := "n".data },
    priority_matrix := [] }

def cexExportProject : Project := { cexProject with versions := [cexVersion] }

def cexExportRequest : ExportRequest :=
  { version_id := some "v2".data, export_format := "docx".data }

def liveErrAIEnv : AIEnv := { openai_module_available := true, live_call := .error "boom".data }

def okAIEnv : AIEnv := { openai_module_available := true, live_call := .ok "b".data }

def emptyKeySettings : Settings := { openai_api_key := some [], allow_mock_ai := true }

/-! # Theorems -/

lemma except_map_map {ε α β γ : Type} (f : α → β) (g : β → γ) (e : Except ε α) :
    (e.map f).map g = e.map (fun x => g (f x)) := by
  cases e <;> rfl

/-- `add_document` only changes `document_ids`. -/
lemma add_document_eq (p : Project) (d : PyStr) :
    p.add_document d = { p with document_ids := (p.add_document d).document_ids } := by
  rw [Project.add_document]
  split <;> rfl

/-- A fold of `add_document` only changes `document_ids`. -/
lemma foldl_add_document_eq (ids : List PyStr) : ∀ p : Project,
    ids.foldl Project.add_document p
      = { p with document_ids := (ids.foldl Project.add_document p).document_ids } := by
  induction ids with
  | nil => intro p; rfl
  | cons i ids ih =>
    intro p
    rw [List.foldl_cons, ih (p.add_document i)]
    rw [Project.add_document]
    split <;> rfl

/-! Auxiliary character-level facts: lowercasing a line does not change
whether it starts with "1." or "-", since no uppercase letter lowercases to a
digit, a dot or a hyphen. -/

lemma toNat_ofNat_of_valid {n : Nat} (h : n.isValidChar) : (Char.ofNat n).toNat = n := by
  rw [Char.ofNat, dif_pos h]
  rfl

lemma char_eq_of_toNat_eq {c d : Char} (h : c.toNat = d.toNat) : c = d :=
  Char.eq_of_val_eq (UInt32.ext h)

lemma toLower_def (c : Char) :
    Char.toLower c = if c.toNat ≥ 65 ∧ c.toNat ≤ 90 then Char.ofNat (c.toNat + 32) else c := rfl

lemma toLower_eq_low {t : Char} (ht : t.toNat < 65) (c : Char) :
    Char.toLower c = t ↔ c = t := by
  rw [toLower_def]
  split
  next h =>
    have hval : (Char.ofNat (c.toNat + 32)).toNat = c.toNat + 32 :=
      toNat_ofNat_of_valid (Or.inl (by omega))
    constructor
    · intro he
      have := congrArg Char.toNat he
      rw [hval] at this
      omega
    · intro he
      subst he
      omega
  next h =>
    exact Iff.rfl

lemma beq_toLower_low {t : Char} (ht : t.toNat < 65) (c : Char) :
    (t == Char.toLower c) = (t == c) := by
  by_cases hc : c = t
  · subst hc
    have hfix : Char.toLower c = c := by
      rw [toLower_def]
      split
      next h => omega
      next h => rfl
    rw [hfix]
  · have hne : Char.toLower c ≠ t := fun he => hc ((toLower_eq_low ht c).mp he)
    have e1 : (t == Char.toLower c) = false := by
      rw [beq_eq_false_iff_ne]
      exact fun he => hne he.symm
    have e2 : (t == c) = false := by
      rw [beq_eq_false_iff_ne]
      exact fun he => hc he.symm
    rw [e1, e2]

lemma startswith_one_dot_lower (l : PyStr) :
    pyStartswith "1.".data (pyLower l) = pyStartswith "1.".data l := by
  match l with
  | [] => rfl
  | [c] =>
    show List.isPrefixOf ['1', '.'] [Char.toLower c] = List.isPrefixOf ['1', '.'] [c]
    simp only [List.isPrefixOf_cons₂, List.isPrefixOf_cons_nil, Bool.and_false]
  | c :: d :: rest =>
    show List.isPrefixOf ['1', '.'] (Char.toLower c :: Char.toLower d :: _)
       = List.isPrefixOf ['1', '.'] (c :: d :: rest)
    simp only [List.isPrefixOf_cons₂, List.isPrefixOf_nil_left, Bool.and_true]
    rw [beq_toLower_low (by decide) c, beq_toLower_low (by decide) d]

lemma startswith_dash_lower (l : PyStr) :
    pyStartswith "-".data (pyLower l) = pyStartswith "-".data l := by
  match l with
  | [] => rfl
  | c :: rest =>
    show List.isPrefixOf ['-'] (Char.toLower c :: _) = List.isPrefixOf ['-'] (c :: rest)
    simp only [List.isPrefixOf_cons₂, List.isPrefixOf_nil_left, Bool.and_true]
    rw [beq_toLower_low (by decide) c]

lemma qualifies_lower (line : PyStr) :
    (pyStartswith "1.".data (pyLower line) || pyStartswith "-".data (pyLower line))
      = amendedQualifies line := by
  rw [amendedQualifies, startswith_one_dot_lower, startswith_dash_lower]

/-- The loop of `prioritize_requirements`, projected to priorities, equals a
filter-then-map over the 1-indexed enumeration of the lines. -/
lemma prioritizeAux_priorities (lines : List PyStr) : ∀ idx : Nat,
    (prioritizeAux idx lines).map (fun e => e.priority)
      = ((pyEnumerateFrom idx lines).filter (fun p => amendedQualifies p.2)).map
          (fun p => specBucket p.1 p.2) := by
  induction lines with
  | nil => intro idx; rfl
  | cons line rest ih =>
    intro idx
    rw [prioritizeAux, pyEnumerateFrom]
    simp only [List.filter_cons, ← qualifies_lower line]
    by_cases hq :
        (pyStartswith "1.".data (pyLower line) || pyStartswith "-".data (pyLower line)) = true
    · simp only [if_pos hq, List.map_cons]
      rw [ih (idx + 1)]
      congr 1
    · simp only [if_neg hq]
      exact ih (idx + 1)

/-- The loop of `prioritize_requirements`, projected to requirement texts,
equals a filter-then-map over the lines. -/
lemma prioritizeAux_requirements (lines : List PyStr) : ∀ idx : Nat,
    (prioritizeAux idx lines).map (fun e => e.requirement)
      = (lines.filter amendedQualifies).map (fun line => pyStripChars "- ".data line) := by
  induction lines with
  | nil => intro idx; rfl
  | cons line rest ih =>
    intro idx
    rw [prioritizeAux]
    simp only [List.filter_cons, ← qualifies_lower line]
    by_cases hq :
        (pyStartswith "1.".data (pyLower line) || pyStartswith "-".data (pyLower line)) = true
    · simp only [if_pos hq, List.map_cons]
      rw [ih (idx + 1)]
    · simp only [if_neg hq]
      exact ih (idx + 1)

/-- C2 (counterexample): on the input " - x", whose single line starts with
"-" after trimming but not before it, `prioritize_requirements` selects
nothing, while the claim (which qualifies lines after trimming) predicts one
selected line with bucketed priority "Should". -/
theorem C2_counterexample :
    prioritize_requirements " - x".data = []
      ∧ claimPriorities " - x".data = ["Should".data] := by
  constructor
  · decide
  · decide

/-- C2 (amended): `prioritize_requirements` selects exactly the lines that
start with "1." or with "-" (no trimming is applied before the prefix test),
and assigns each selected line priority "Must" if it contains "must"
(case-insensitive), else "Should" if it contains "should", else "Could" if it
contains "could", else the element of [Must, Should, Could, Won't] at index
(line_index mod 4), line_index being the 1-indexed position of the line in
the full input; output preserves line order. -/
theorem C2_prioritize_selection (md : PyStr) :
    (prioritize_requirements md).map (fun e => e.priority) = amendedPriorities md := by
  rw [prioritize_requirements, amendedPriorities]
  exact prioritizeAux_priorities (pySplitlines md) 1

/-- C4: on markdown containing none of "performance"/"integration"/"security"
(case-insensitive), `build_gap_analysis` reports both fixed missing items (in
check order) and the fixed clarifying question; on markdown containing all
three, both output lists are empty. -/
theorem C4_gap_analysis (md : PyStr) :
    (pyIn "performance".data (pyLower md) = false →
     pyIn "integration".data (pyLower md) = false →
     pyIn "security".data (pyLower md) = false →
     build_gap_analysis md =
       { missing_information := ["Performance benchmarks".data,
                                 "Security requirements detail".data],
         clarifying_questions := ["Which systems require integration?".data] })
    ∧ (pyIn "performance".data (pyLower md) = true →
       pyIn "integration".data (pyLower md) = true →
       pyIn "security".data (pyLower md) = true →
       build_gap_analysis md = { missing_information := [], clarifying_questions := [] }) := by
  constructor
  · intro h1 h2 h3
    rw [build_gap_analysis]
    simp only [h1, h2, h3]
    rfl
  · intro h1 h2 h3
    rw [build_gap_analysis]
    simp only [h1, h2, h3]
    rfl

theorem C4_gap_analysis_witness :
    build_gap_analysis "x".data =
        { missing_information := ["Performance benchmarks".data,
                                  "Security requirements detail".data],
          clarifying_questions := ["Which systems require integration?".data] }
      ∧ build_gap_analysis "Performance, integration and SECURITY.".data =
          { missing_information := [], clarifying_questions := [] } :=
  ⟨(C4_gap_analysis "x".data).1 (by decide) (by decide) (by decide),
   (C4_gap_analysis "Performance, integration and SECURITY.".data).2
     (by decide) (by decide) (by decide)⟩

/-- C6 (counterexample): on the qualifying line "- req -" the stored
requirement text is "req" — the trailing "- " characters are stripped too —
while stripping from the left only would give "req -". -/
theorem C6_counterexample :
    prioritize_requirements "- req -".data
        = [{ requirement := "req".data, priority := "Should".data }]
      ∧ pyLStripChars "- ".data "- req -".data = "req -".data
      ∧ "req".data ≠ "req -".data := by
  refine ⟨by decide, by decide, by decide⟩

/-- C6 (amended): for every qualifying line, the stored requirement text is
the line with "-" and space characters stripped from BOTH ends (Python
`line.strip("- ")`), in line order. -/
theorem C6_requirement_text (md : PyStr) :
    (prioritize_requirements md).map (fun e => e.requirement)
      = ((pySplitlines md).filter amendedQualifies).map
          (fun line => pyStripChars "- ".data line) := by
  rw [prioritize_requirements]
  exact prioritizeAux_requirements (pySplitlines md) 1

set_option maxRecDepth 4000 in
/-- C1 (counterexample): on a mock-path generate run the orchestrator supplies
the fixed non-empty mock gap analysis, yet the stored version carries the Text
Analyzer's result on the mock markdown (which flags only the missing
"security" keyword) — the orchestrator-supplied value is discarded. -/
theorem C1_counterexample :
    ((generate_brd_model mockAIEnv mockSettings cexAIPayload []).map
        (fun o => o.gap_analysis) = .ok (some cexMockGap))
    ∧ ((generate_project_brd emptyStore mockSettings mockGenEnv cexProject noDocsRequest).map
        (fun r => r.2.gap_analysis)
        = .ok { missing_information := ["Security requirements detail".data],
                clarifying_questions := [] })
    ∧ cexMockGap ≠ { missing_information := ["Security requirements detail".data],
                     clarifying_questions := [] } := by
  refine ⟨by decide, by decide, by decide⟩

/-- C1 (amended): generate_version always computes the stored gap_analysis and
priority_matrix with the Text Analyzer on the returned markdown, whether or
not the orchestrator supplied gap or priority data. -/
theorem C1_analyzer_always (store : PyStr → Option Document) (s : Settings)
    (env : GenEnv) (project : Project) (request : GenerateRequest) :
    (generate_project_brd store s env project request).map (fun r => r.2.gap_analysis)
      = (generate_project_brd store s env project request).map
          (fun r => build_gap_analysis r.2.brd_markdown)
    ∧ (generate_project_brd store s env project request).map (fun r => r.2.priority_matrix)
      = (generate_project_brd store s env project request).map
          (fun r => prioritize_requirements r.2.brd_markdown) := by
  constructor <;> rw [generate_project_brd, except_map_map, except_map_map]

/-- C5: every successful generate run returns a project whose version sequence
is the new version prepended to the previous sequence, with updated_at equal
to the new version's created_at; freshly created projects have no versions and
updated_at equal to created_at. -/
theorem C5_newest_first (store : PyStr → Option Document) (s : Settings)
    (env : GenEnv) (project : Project) (request : GenerateRequest) :
    ((generate_project_brd store s env project request).map (fun r => r.1.versions)
       = (generate_project_brd store s env project request).map
           (fun r => r.2 :: project.versions))
    ∧ ((generate_project_brd store s env project request).map (fun r => r.1.updated_at)
       = (generate_project_brd store s env project request).map
           (fun r => r.2.created_at))
    ∧ (∀ (id : PyStr) (now : Nat) (payload : ProjectCreatePayload),
        (createProject id now payload).versions = []
        ∧ (createProject id now payload).updated_at
            = (createProject id now payload).created_at) := by
  refine ⟨?_, ?_, fun id now payload => ⟨rfl, rfl⟩⟩ <;>
  · rw [generate_project_brd, except_map_map, except_map_map]
    congr 1
    funext o
    dsimp only
    split
    · rw [foldl_add_document_eq]
      rfl
    · rfl

/-- C10: generate_version leaves id, name, industry, business_problem, goals,
stakeholders, timelines and created_at untouched, and document_ids untouched
when no explicit document ids are supplied. -/
theorem C10_generate_frame (store : PyStr → Option Document) (s : Settings)
    (env : GenEnv) (project : Project) (request : GenerateRequest) :
    ((generate_project_brd store s env project request).map
        (fun r => (r.1.id, r.1.name, r.1.industry, r.1.business_problem,
                   r.1.goals, r.1.stakeholders, r.1.timelines, r.1.created_at))
       = (generate_project_brd store s env project request).map
           (fun _ => (project.id, project.name, project.industry,
                      project.business_problem, project.goals,
                      project.stakeholders, project.timelines, project.created_at)))
    ∧ (request.document_ids = [] →
        (generate_project_brd store s env project request).map (fun r => r.1.document_ids)
          = (generate_project_brd store s env project request).map
              (fun _ => project.document_ids)) := by
  constructor
  · rw [generate_project_brd, except_map_map, except_map_map]
    congr 1
    funext o
    dsimp only
    split
    · rw [foldl_add_document_eq]
      rfl
    · rfl
  · intro h
    rw [generate_project_brd, except_map_map, except_map_map]
    congr 1
    funext o
    dsimp only
    rw [h]
    rfl

theorem C10_generate_frame_witness :
    (generate_project_brd emptyStore liveSettings liveGenEnv cexProject noDocsRequest).map
        (fun r => r.1.document_ids)
      = (generate_project_brd emptyStore liveSettings liveGenEnv cexProject noDocsRequest).map
          (fun _ => cexProject.document_ids) :=
  (C10_generate_frame emptyStore liveSettings liveGenEnv cexProject noDocsRequest).2 rfl

/-- C8: with no client configured and mock fallback disabled, generate_brd
fails with a GenerationError carrying no partial result; with mock fallback
enabled, both an absent client and a failed live call yield the deterministic
mock result. -/
theorem C8_generation_error_handling (env : AIEnv) (s : Settings) (payload : AIPayload)
    (references : List PyStr) :
    (hasClient env s = false → s.allow_mock_ai = false →
      generate_brd_model env s payload references
        = .error (.BRDGenerationError
            "OpenAI client not available and mock responses disabled.".data))
    ∧ (hasClient env s = false → s.allow_mock_ai = true →
      generate_brd_model env s payload references = .ok (mockResponse payload references))
    ∧ (s.allow_mock_ai = true → ∀ exc, env.live_call = .error exc →
      generate_brd_model env s payload references = .ok (mockResponse payload references)) := by
  refine ⟨?_, ?_, ?_⟩
  · intro hc hm
    rw [generate_brd_model, if_pos hc, if_pos hm]
  · intro hc hm
    rw [generate_brd_model, if_pos hc, if_neg (by simp [hm])]
  · intro hm exc hl
    by_cases hc : hasClient env s = false
    · rw [generate_brd_model, if_pos hc, if_neg (by simp [hm])]
    · rw [generate_brd_model, if_neg hc, hl]
      dsimp only
      rw [if_pos hm]

theorem C8_generation_error_handling_witness :
    generate_brd_model mockAIEnv { openai_api_key := none, allow_mock_ai := false }
        cexAIPayload []
      = .error (.BRDGenerationError
          "OpenAI client not available and mock responses disabled.".data)
    ∧ generate_brd_model mockAIEnv mockSettings cexAIPayload []
        = .ok (mockResponse cexAIPayload [])
    ∧ generate_brd_model liveErrAIEnv liveSettings cexAIPayload []
        = .ok (mockResponse cexAIPayload []) :=
  ⟨(C8_generation_error_handling mockAIEnv _ cexAIPayload []).1 (by decide) rfl,
   (C8_generation_error_handling mockAIEnv mockSettings cexAIPayload []).2.1 (by decide) rfl,
   (C8_generation_error_handling liveErrAIEnv liveSettings cexAIPayload []).2.2 rfl
     "boom".data rfl⟩

/-- C9: whenever the mock path is taken (no client, fallback enabled), the
generation result is a function of payload and references alone: two runs
under different environments and settings coincide and equal the mock
response, whose markdown, diagram, gap analysis and summaries therefore
contain no timestamps or randomness. -/
theorem C9_mock_determinism (e1 e2 : AIEnv) (s1 s2 : Settings) (payload : AIPayload)
    (references : List PyStr)
    (h1c : hasClient e1 s1 = false) (h1m : s1.allow_mock_ai = true)
    (h2c : hasClient e2 s2 = false) (h2m : s2.allow_mock_ai = true) :
    generate_brd_model e1 s1 payload references = generate_brd_model e2 s2 payload references
    ∧ generate_brd_model e1 s1 payload references
        = .ok (mockResponse payload references) := by
  have g1 : generate_brd_model e1 s1 payload references
      = .ok (mockResponse payload references) := by
    rw [generate_brd_model, if_pos h1c, if_neg (by simp [h1m])]
  have g2 : generate_brd_model e2 s2 payload references
      = .ok (mockResponse payload references) := by
    rw [generate_brd_model, if_pos h2c, if_neg (by simp [h2m])]
  exact ⟨g1.trans g2.symm, g1⟩

theorem C9_mock_determinism_witness :
    generate_brd_model mockAIEnv mockSettings cexAIPayload ["r".data]
      = generate_brd_model okAIEnv emptyKeySettings cexAIPayload ["r".data] :=
  (C9_mock_determinism mockAIEnv okAIEnv mockSettings emptyKeySettings cexAIPayload
    ["r".data] (by decide) rfl (by decide) rfl).1

/-- C3 (counterexample): exporting with an explicitly given version id that is
absent from the project does not fail NotFound — the code silently falls back
to the most recent version and the export succeeds. -/
theorem C3_counterexample :
    export_project (fun _ => ([0] : List Nat)) (fun _ => [1])
        cexExportProject cexExportRequest
      = .ok ((([0] : List Nat),
          "application/vnd.openxmlformats-officedocument.wordprocessingml.document".data),
          "x_BRD.docx".data)
    ∧ cexExportProject.versions.find? (fun candidate => candidate.id = "v2".data) = none := by
  refine ⟨by decide, by decide⟩

/-- C3 (amended): a given version_id absent from the project falls back to the
most recent version (index 0); NotFound is raised only when the project has no
versions; a format outside docx/pdf fails with UnsupportedFormat for any
renderers, before any export bytes are produced. -/
theorem C3_export_behavior {β : Type} (docxRender pdfRender : PyStr → β)
    (project : Project) (request : ExportRequest) :
    (project.versions = [] →
      export_project docxRender pdfRender project request
        = .error (.NotFound "No versions available for export".data))
    ∧ (∀ v rest, project.versions = v :: rest → request.version_id = none →
        export_project docxRender pdfRender project request
          = (export_brd docxRender pdfRender v.brd_markdown request.export_format).map
              (fun out => (out, pyReplaceSpace project.name ++ "_BRD.".data
                                  ++ request.export_format)))
    ∧ (∀ v rest vid, project.versions = v :: rest → request.version_id = some vid →
        project.versions.find? (fun candidate => candidate.id = vid) = none →
        export_project docxRender pdfRender project request
          = (export_brd docxRender pdfRender v.brd_markdown request.export_format).map
              (fun out => (out, pyReplaceSpace project.name ++ "_BRD.".data
                                  ++ request.export_format)))
    ∧ (request.export_format ≠ "docx".data → request.export_format ≠ "pdf".data →
        project.versions ≠ [] →
        export_project docxRender pdfRender project request
          = .error (.UnsupportedFormat "Unsupported export format".data)) := by
  refine ⟨?_, ?_, ?_, ?_⟩
  · intro h
    rw [export_project, h]
    cases hid : request.version_id <;> rfl
  · intro v rest hvs hid
    rw [export_project, hid, hvs]
  · intro v rest vid hvs hid hfind
    rw [export_project, hid]
    dsimp only
    rw [hfind, hvs]
  · intro hd hp hnv
    rcases hvs : project.versions with _ | ⟨v, rest⟩
    · exact absurd hvs hnv
    rcases hid : request.version_id with _ | vid
    · rw [export_project, hid, hvs]
      dsimp only
      rw [export_brd, if_neg hd, if_neg hp]
      rfl
    · rcases hf : (v :: rest).find? (fun candidate => candidate.id = vid) with _ | ver
      · rw [export_project, hid, hvs]
        dsimp only
        rw [hf]
        dsimp only
        rw [export_brd, if_neg hd, if_neg hp]
        rfl
      · rw [export_project, hid, hvs]
        dsimp only
        rw [hf]
        dsimp only
        rw [export_brd, if_neg hd, if_neg hp]
        rfl

theorem C3_export_behavior_witness :
    export_project (fun _ => ([0] : List Nat)) (fun _ => [1]) cexProject
        { version_id := none, export_format := "docx".data }
      = .error (.NotFound "No versions available for export".data)
    ∧ export_project (fun _ => ([0] : List Nat)) (fun _ => [1])
        cexExportProject cexExportRequest
      = (export_brd (fun _ => ([0] : List Nat)) (fun _ => [1]) cexVersion.brd_markdown
           cexExportRequest.export_format).map
          (fun out => (out, pyReplaceSpace cexExportProject.name ++ "_BRD.".data
                              ++ cexExportRequest.export_format))
    ∧ export_project (fun _ => ([0] : List Nat)) (fun _ => [1]) cexExportProject
        { version_id := none, export_format := "txt".data }
      = .error (.UnsupportedFormat "Unsupported export format".data) :=
  ⟨(C3_export_behavior _ _ cexProject _).1 rfl,
   (C3_export_behavior _ _ cexExportProject cexExportRequest).2.2.1 cexVersion [] "v2".data
     rfl rfl (by decide),
   (C3_export_behavior _ _ cexExportProject _).2.2.2 (by decide) (by decide) (by decide)⟩

/-! ## Difflib: the self-comparison produces an empty diff

The road map: on `SequenceMatcher(None, l, l)` the DP rows of
`find_longest_match` are characterized by `rlF`; every recorded best match is
diagonal, because any off-diagonal run is dominated by an already-scanned
diagonal run; the extension loops then grow a diagonal best to the whole
range, so `find_longest_match` returns `(0, 0, n)`, the matching blocks are
the full-range block, the opcodes a single `equal`, the grouped opcodes
empty, and the unified diff has no lines. -/

section DifflibEqual

variable {α : Type} [DecidableEq α] [Inhabited α]

lemma smB2j_mem (b : List α) (v : α) (j : Nat) :
    j ∈ smB2j b v ↔ (smPopular b v = false ∧ j < b.length ∧ b.getD j default = v) := by
  rw [smB2j]
  split
  next hp =>
    simp only [List.not_mem_nil, false_iff, not_and]
    intro hp'
    rw [hp] at hp'
    cases hp'
  next hp =>
    simp only [List.mem_map, List.mem_filter, Bool.not_eq_true] at *
    constructor
    · rintro ⟨⟨i, x⟩, ⟨hmem, hx⟩, hj⟩
      dsimp only at hx hj
      subst hj
      rw [List.mk_mem_enum_iff_getElem?] at hmem
      rw [List.getElem?_eq_some] at hmem
      obtain ⟨hl, hget⟩ := hmem
      refine ⟨Bool.not_eq_true _ ▸ (by simpa using hp), hl, ?_⟩
      rw [List.getD_eq_getElem?_getD, List.getElem?_eq_getElem hl]
      simp only [Option.getD_some]
      rw [hget]
      exact of_decide_eq_true hx
    · rintro ⟨_, hl, hget⟩
      refine ⟨(j, v), ⟨?_, by simp⟩, rfl⟩
      rw [List.mk_mem_enum_iff_getElem?, List.getElem?_eq_some]
      refine ⟨hl, ?_⟩
      rw [List.getD_eq_getElem?_getD, List.getElem?_eq_getElem hl] at hget
      simpa using hget

omit [Inhabited α] in
lemma smB2j_sorted (b : List α) (v : α) : (smB2j b v).Pairwise (· < ·) := by
  rw [smB2j]
  split
  · exact List.Pairwise.nil
  · have h1 : (List.map Prod.fst b.enum).Pairwise (· < ·) := by
      rw [List.enum_map_fst]
      exact List.pairwise_lt_range _
    have h2 : b.enum.Pairwise (fun p q : Nat × α => p.1 < q.1) :=
      (List.pairwise_map).mp h1
    exact (List.pairwise_map).mpr (h2.sublist (List.filter_sublist _))

lemma rlF_le_row (l : List α) : ∀ d j, rlF l d j ≤ d := by
  intro d
  induction d with
  | zero => intro j; exact Nat.le_refl 0
  | succ d ih =>
    intro j
    rw [rlF]
    split
    · split
      · omega
      · have := ih (j - 1); omega
    · omega

lemma rlF_le_col (l : List α) : ∀ d j, rlF l d j ≤ j + 1 := by
  intro d
  induction d with
  | zero => intro j; exact Nat.zero_le _
  | succ d ih =>
    intro j
    rw [rlF]
    split
    · split
      · omega
      · have := ih (j - 1)
        have hj : 1 ≤ j := by omega
        omega
    · omega

/-- Unfolding the run ending at cell (row `d`, column `j`): each of its `t`-th
predecessors is a written cell. -/
lemma chain_of_rlF (l : List α) : ∀ d j t, t < rlF l (d + 1) j →
    (j - t) ∈ smB2j l (l.getD (d - t) default) := by
  intro d
  induction d with
  | zero =>
    intro j t ht
    rw [rlF] at ht
    split at ht
    next hmem =>
      have h0 : rlF l 0 (j - 1) = 0 := rfl
      have : t = 0 := by
        split at ht
        · omega
        · rw [h0] at ht; omega
      subst this
      simpa using hmem
    next hmem => omega
  | succ d ih =>
    intro j t ht
    rw [rlF] at ht
    split at ht
    next hmem =>
      match t with
      | 0 => simpa using hmem
      | t + 1 =>
        have hj : j ≠ 0 := by
          by_contra hj0
          rw [if_pos hj0] at ht
          omega
        rw [if_neg hj] at ht
        have ht' : t < rlF l (d + 1) (j - 1) := by omega
        have := ih (j - 1) t ht'
        have e1 : j - 1 - t = j - (t + 1) := by omega
        have e2 : d - t = d + 1 - (t + 1) := by omega
        rw [e1, e2] at this
        exact this
    next hmem => omega

/-- A diagonal chain of written cells of length `k` forces the diagonal run
value at its end to be at least `k`. -/
lemma rlF_ge_of_chain (l : List α) : ∀ k c, k ≤ c + 1 →
    (∀ t, t < k → (c - t) ∈ smB2j l (l.getD (c - t) default)) →
    k ≤ rlF l (c + 1) c := by
  intro k
  induction k with
  | zero => intro c _ _; exact Nat.zero_le _
  | succ k ih =>
    intro c hc hchain
    rw [rlF]
    have hmem := hchain 0 (by omega)
    simp only [Nat.sub_zero] at hmem
    rw [if_pos hmem]
    by_cases hc0 : c = 0
    · subst hc0
      rw [if_pos rfl]
      omega
    · rw [if_neg hc0]
      have : k ≤ rlF l ((c - 1) + 1) (c - 1) := by
        refine ih (c - 1) (by omega) ?_
        intro t ht
        have := hchain (t + 1) (by omega)
        have e : c - (t + 1) = c - 1 - t := by omega
        rw [e] at this
        exact this
      have e : (c - 1) + 1 = c := by omega
      rw [e] at this
      omega

/-- Off-diagonal runs are dominated by the diagonal run in the same column
(used when the off-diagonal cell lies below the diagonal, `j < d`). -/
lemma rlF_diag_col (l : List α) (d j : Nat) :
    rlF l (d + 1) j ≤ rlF l (j + 1) j := by
  refine rlF_ge_of_chain l (rlF l (d + 1) j) j (rlF_le_col l (d + 1) j) ?_
  intro t ht
  have hcell := chain_of_rlF l d j t ht
  rw [smB2j_mem] at hcell ⊢
  obtain ⟨hpop, hlen, hget⟩ := hcell
  rw [hget]
  exact ⟨hpop, hlen, rfl⟩

/-- Off-diagonal runs are dominated by the diagonal run in the same row
(used when the off-diagonal cell lies above the diagonal, `d < j`). -/
lemma rlF_diag_row (l : List α) (d j : Nat) (hd : d < l.length) :
    rlF l (d + 1) j ≤ rlF l (d + 1) d := by
  refine rlF_ge_of_chain l (rlF l (d + 1) j) d (rlF_le_row l (d + 1) j) ?_
  intro t ht
  have hcell := chain_of_rlF l d j t ht
  rw [smB2j_mem] at hcell ⊢
  obtain ⟨hpop, hlen, hget⟩ := hcell
  exact ⟨hpop, by omega, rfl⟩

/-- One full row of the self-comparison DP: processing the `b2j` bucket of
row `d` turns the fresh row table into `rlF l (d+1)` and keeps the best match
diagonal, with its size dominating every cell scanned so far. -/
lemma flmInner_equal (l : List α) (d : Nat) (hd : d < l.length)
    (j2len : Nat → Nat) (hold : ∀ x, j2len x = rlF l d x) :
    ∀ (js pre : List Nat) (newj2len : Nat → Nat) (best : Nat × Nat × Nat),
    pre ++ js = smB2j l (l.getD d default) →
    (∀ x, newj2len x = if x ∈ pre then rlF l (d + 1) x else 0) →
    best.1 = best.2.1 →
    (∀ d' j', d' < d → rlF l (d' + 1) j' ≤ best.2.2) →
    (∀ x ∈ pre, rlF l (d + 1) x ≤ best.2.2) →
    (∀ x, (flmInner 0 l.length d js j2len newj2len best).1 x = rlF l (d + 1) x)
    ∧ (flmInner 0 l.length d js j2len newj2len best).2.1
        = (flmInner 0 l.length d js j2len newj2len best).2.2.1
    ∧ (∀ d' j', d' < d →
        rlF l (d' + 1) j' ≤ (flmInner 0 l.length d js j2len newj2len best).2.2.2)
    ∧ (∀ j', rlF l (d + 1) j'
        ≤ (flmInner 0 l.length d js j2len newj2len best).2.2.2) := by
  intro js
  induction js with
  | nil =>
    intro pre newj2len best heq hnew hdiag hmaxrows hpre
    rw [flmInner]
    rw [List.append_nil] at heq
    dsimp only
    refine ⟨?_, hdiag, hmaxrows, ?_⟩
    · intro x
      rw [hnew x]
      by_cases hx : x ∈ pre
      · rw [if_pos hx]
      · rw [if_neg hx]
        rw [rlF, if_neg (heq ▸ hx)]
    · intro j'
      by_cases hx : j' ∈ pre
      · exact hpre j' hx
      · rw [rlF, if_neg (heq ▸ hx)]
        exact Nat.zero_le _
  | cons j js ih =>
    intro pre newj2len best heq hnew hdiag hmaxrows hpre
    have hjmem : j ∈ smB2j l (l.getD d default) := by
      rw [← heq]
      exact List.mem_append_right pre (List.mem_cons_self j js)
    have hjn : j < l.length := ((smB2j_mem l _ j).mp hjmem).2.1
    have heq' : (pre ++ [j]) ++ js = smB2j l (l.getD d default) := by
      rw [List.append_assoc, List.singleton_append]
      exact heq
    have hk : (if j = 0 then 0 else j2len (j - 1)) + 1 = rlF l (d + 1) j := by
      rw [rlF, if_pos hjmem]
      by_cases hj0 : j = 0
      · rw [if_pos hj0, if_pos hj0]
      · rw [if_neg hj0, if_neg hj0, hold]
    rw [flmInner, if_neg (by omega), if_neg (by omega)]
    dsimp only
    have hnew' : ∀ (k : Nat), k = rlF l (d + 1) j →
        ∀ x, (fun x => if x = j then k else newj2len x) x
          = if x ∈ pre ++ [j] then rlF l (d + 1) x else 0 := by
      intro k hkk x
      dsimp only
      by_cases hx : x = j
      · subst hx
        rw [if_pos rfl, if_pos (List.mem_append_right pre (List.mem_singleton.mpr rfl)), hkk]
      · rw [if_neg hx]
        rw [hnew x]
        by_cases hxp : x ∈ pre
        · rw [if_pos hxp, if_pos (List.mem_append_left _ hxp)]
        · rw [if_neg hxp, if_neg (by
            intro hmem
            rcases List.mem_append.mp hmem with h | h
            · exact hxp h
            · exact hx (List.mem_singleton.mp h))]
    by_cases hlt : best.2.2 < (if j = 0 then 0 else j2len (j - 1)) + 1
    · rw [if_pos hlt]
      have hjd : j = d := by
        by_contra hne
        rcases Nat.lt_or_ge j d with hjlt | hjge
        · have h1 := hmaxrows j j hjlt
          have h2 := rlF_diag_col l d j
          omega
        · have hdj : d < j := by omega
          have hdmem : d ∈ smB2j l (l.getD d default) := by
            rw [smB2j_mem] at hjmem ⊢
            exact ⟨hjmem.1, hd, rfl⟩
          have hdpre : d ∈ pre := by
            have hmem : d ∈ pre ++ j :: js := heq ▸ hdmem
            rcases List.mem_append.mp hmem with h | h
            · exact h
            · rcases List.mem_cons.mp h with h0 | h0
              · omega
              · have hpw : (pre ++ j :: js).Pairwise (· < ·) := heq ▸ smB2j_sorted l _
                have hpw2 := (List.pairwise_append.mp hpw).2.1
                have := (List.pairwise_cons.mp hpw2).1 d h0
                omega
          have h1 := hpre d hdpre
          have h2 := rlF_diag_row l d j hd
          omega
      refine ih (pre ++ [j]) _ _ heq' (hnew' _ hk) (by dsimp only; rw [hjd]) ?_ ?_
      · intro d' j' hd'
        have := hmaxrows d' j' hd'
        dsimp only
        omega
      · intro x hx
        dsimp only
        rcases List.mem_append.mp hx with h | h
        · have := hpre x h
          omega
        · have hxj := List.mem_singleton.mp h
          subst hxj
          omega
    · rw [if_neg hlt]
      refine ih (pre ++ [j]) _ _ heq' (hnew' _ hk) hdiag hmaxrows ?_
      intro x hx
      rcases List.mem_append.mp hx with h | h
      · exact hpre x h
      · have hxj := List.mem_singleton.mp h
        subst hxj
        omega

/-- All rows of the self-comparison DP keep the best diagonal. -/
lemma flmRows_equal (l : List α) : ∀ (fuel d : Nat) (j2len : Nat → Nat)
    (best : Nat × Nat × Nat),
    d + fuel = l.length →
    (∀ x, j2len x = rlF l d x) →
    best.1 = best.2.1 →
    (∀ d' j', d' < d → rlF l (d' + 1) j' ≤ best.2.2) →
    (flmRows l l 0 l.length d fuel j2len best).1
      = (flmRows l l 0 l.length d fuel j2len best).2.1 := by
  intro fuel
  induction fuel with
  | zero => intro d j2len best _ _ hdiag _; exact hdiag
  | succ fuel ih =>
    intro d j2len best hdn hold hdiag hmaxrows
    rw [flmRows]
    have hd : d < l.length := by omega
    have step := flmInner_equal l d hd j2len hold (smB2j l (l.getD d default)) []
      (fun _ => 0) best rfl (fun x => rfl) hdiag hmaxrows (fun x hx => by cases hx)
    refine ih (d + 1) _ _ (by omega) step.1 step.2.1 ?_
    intro d' j' hd'
    rcases Nat.lt_or_ge d' d with h | h
    · exact step.2.2.1 d' j' h
    · have : d' = d := by omega
      subst this
      exact step.2.2.2 j'

/-- In the self comparison, the backward extension drags a diagonal best all
the way down to the start of the range. -/
lemma flmExtendLower_diag (l : List α) :
    ∀ (p s : Nat), flmExtendLower l l 0 0 false p p s = (0, 0, s + p) := by
  intro p
  induction p with
  | zero =>
    intro s
    rw [flmExtendLower, dif_neg (by omega)]
    rw [Nat.add_zero]
  | succ p ih =>
    intro s
    rw [flmExtendLower, dif_pos ⟨by omega, by omega, rfl, rfl⟩]
    simp only [Nat.add_sub_cancel]
    rw [ih (s + 1)]
    have : s + 1 + p = s + (p + 1) := by omega
    rw [this]

/-- In the self comparison, the forward extension grows a best anchored at
the start up to the full range. -/
lemma flmExtendUpper_diag (l : List α) :
    ∀ (s : Nat), s ≤ l.length →
    flmExtendUpper l l l.length l.length false 0 0 s = (0, 0, l.length) := by
  have H : ∀ (fuel s : Nat), l.length - s ≤ fuel → s ≤ l.length →
      flmExtendUpper l l l.length l.length false 0 0 s = (0, 0, l.length) := by
    intro fuel
    induction fuel with
    | zero =>
      intro s hle hs
      rw [flmExtendUpper, dif_neg (by omega)]
      have : s = l.length := by omega
      rw [this]
    | succ fuel ih =>
      intro s hle hs
      by_cases hlt : s < l.length
      · rw [flmExtendUpper, dif_pos ⟨by omega, by omega, rfl, rfl⟩]
        exact ih (s + 1) (by omega) (by omega)
      · rw [flmExtendUpper, dif_neg (by omega)]
        have : s = l.length := by omega
        rw [this]
  exact fun s hs => H (l.length - s) s le_rfl hs

/-- The junk extension passes are no-ops: the junk set is empty. -/
lemma flmExtendLower_junk (a b : List α) (alo blo x y z : Nat) :
    flmExtendLower a b alo blo true x y z = (x, y, z) := by
  rw [flmExtendLower, dif_neg]
  intro h
  exact absurd h.2.2.1 (by simp [smIsBJunk])

lemma flmExtendUpper_junk (a b : List α) (ahi bhi x y z : Nat) :
    flmExtendUpper a b ahi bhi true x y z = (x, y, z) := by
  rw [flmExtendUpper, dif_neg]
  intro h
  exact absurd h.2.2.1 (by simp [smIsBJunk])

/-- `find_longest_match` on the self comparison returns the full range. -/
theorem flm_equal (l : List α) :
    find_longest_match l l 0 l.length 0 l.length = (0, 0, l.length) := by
  rw [find_longest_match]
  set r := flmRows l l 0 l.length 0 (l.length - 0) (fun _ => 0) (0, 0, 0) with hr
  have hdiag : r.1 = r.2.1 := by
    rw [hr]
    exact flmRows_equal l (l.length - 0) 0 (fun _ => 0) (0, 0, 0) (by omega)
      (fun x => rfl) rfl (fun d' j' hd' => by omega)
  have hinv : FlmBestInv 0 l.length 0 l.length r := by
    rw [hr]
    exact flmRows_bounds l l 0 l.length 0 l.length (l.length - 0) 0 (fun _ => 0) (0, 0, 0)
      le_rfl (by omega) (fun x hx => absurd rfl hx) (Or.inl rfl)
  have hs_le : r.2.2 + r.2.1 ≤ l.length := by
    rcases hinv with heqr | ⟨h1, h2, h3, h4, h5⟩
    · have e2 : r.2.1 = 0 := congrArg (fun t => t.2.1) heqr
      have e3 : r.2.2 = 0 := congrArg (fun t => t.2.2) heqr
      omega
    · omega
  have e1 : flmExtendLower l l 0 0 false r.1 r.2.1 r.2.2
      = (0, 0, r.2.2 + r.2.1) := by
    rw [hdiag]
    exact flmExtendLower_diag l r.2.1 r.2.2
  rw [e1]
  dsimp only
  rw [flmExtendUpper_diag l (r.2.2 + r.2.1) hs_le]
  dsimp only
  rw [flmExtendLower_junk]
  dsimp only
  rw [flmExtendUpper_junk]

/-- `get_matching_blocks` on the self comparison: one full-range block plus
the sentinel (only the sentinel when the input is empty). -/
theorem get_matching_blocks_equal (l : List α) :
    get_matching_blocks l l
      = if l.length = 0 then [(0, 0, 0)]
        else [(0, 0, l.length), (l.length, l.length, 0)] := by
  rw [get_matching_blocks]
  rw [matchingBlocksLoop]
  dsimp only
  rw [flm_equal l]
  dsimp only
  by_cases hn : l.length = 0
  · rw [dif_neg (by omega)]
    rw [matchingBlocksLoop, List.mergeSort_nil, mbCollapseLoop, if_neg (by omega)]
    rw [if_pos hn, hn]
    rfl
  · rw [dif_pos (by omega)]
    rw [if_neg (by omega), if_neg (by omega)]
    rw [matchingBlocksLoop, List.nil_append, List.mergeSort_singleton]
    rw [mbCollapseLoop, if_pos ⟨rfl, rfl⟩, mbCollapseLoop, if_pos (by omega)]
    rw [if_neg hn]
    simp

/-- `get_opcodes` on the self comparison: a single `equal` opcode (none when
the input is empty). -/
theorem get_opcodes_equal (l : List α) :
    get_opcodes l l
      = if l.length = 0 then []
        else [(DiffTag.equal, 0, l.length, 0, l.length)] := by
  rw [get_opcodes, get_matching_blocks_equal]
  by_cases hn : l.length = 0
  · rw [if_pos hn, if_pos hn]
    rfl
  · rw [if_neg hn, if_neg hn]
    rw [opcodesLoop, if_neg (by omega), if_neg (by omega), if_neg (by omega),
      if_pos hn]
    rw [opcodesLoop, if_neg (by omega), if_neg (by omega), if_neg (by omega),
      if_neg (by omega)]
    rw [opcodesLoop]
    simp

/-- `get_grouped_opcodes` with the default context of three lines yields no
group on the self comparison. -/
theorem get_grouped_opcodes_equal (l : List α) :
    get_grouped_opcodes l l 3 = [] := by
  rw [get_grouped_opcodes]
  rw [get_opcodes_equal]
  by_cases hn : l.length = 0
  · rw [if_pos hn]
    rfl
  · rw [if_neg hn]
    have hne : (([(DiffTag.equal, 0, l.length, 0, l.length)] : List Opcode)).isEmpty
        = false := rfl
    rw [hne, if_neg (by simp)]
    rw [modifyHeadIfEqual, if_pos rfl, shrinkFront]
    rw [modifyLastIfEqual, if_pos rfl, shrinkBack]
    have hmax : max 0 (l.length - 3) = l.length - 3 := Nat.zero_max _
    have hmin : min l.length (l.length - 3 + 3) = l.length :=
      Nat.min_eq_left (by omega)
    rw [hmax, hmin]
    rw [groupLoop, if_neg (by omega)]
    rw [List.nil_append, groupLoop]
    rw [if_pos rfl]

end DifflibEqual

/-- On identical line sequences `unified_diff` yields no output lines. -/
lemma unified_diff_self (lines : List PyStr) (fromfile tofile lineterm : PyStr) :
    unified_diff lines lines fromfile tofile 3 lineterm = [] := by
  rw [unified_diff]
  rw [get_grouped_opcodes_equal]

/-- C7: whenever the two inputs split into identical line sequences — in
particular for `render_diff a a` — the rendered unified diff is the empty
string; `render_diff` is a pure function of its two arguments throughout this
embedding. -/
theorem C7_render_diff_empty (a b : PyStr) (h : pySplitlines a = pySplitlines b) :
    render_diff a b = [] := by
  rw [render_diff, h, unified_diff_self]
  rfl

theorem C7_render_diff_empty_witness :
    pySplitlines "x\ny".data = pySplitlines "x\ny".data
    ∧ render_diff "x\ny".data "x\ny".data = [] :=
  ⟨rfl, C7_render_diff_empty "x\ny".data "x\ny".data rfl⟩

end BRD
